import Mathlib

/-!
Shallow embedding of the core data pipeline of `src/app.py`
(inventory-optimizer-mvp): series preparation (filter by product, group by
raw date string with summed quantities, day-first date parsing) and the
reorder-point computation `punto_reorden = forecast.tail(30).head(lead_time)['yhat_upper'].sum()`.

Conventions of the embedding:
* pandas dataframes are lists of records; quantities and forecast values are
  rationals (the claims under study do not concern float rounding);
* `groupby(col)[val].sum()` is modelled by sorting the distinct keys
  ascending (pandas `groupby` has `sort=True`) and aggregating each key's
  cells in order of appearance;
* a CSV quantity cell is either a parsed number or a raw string (pandas
  `read_csv` yields a numeric column only when every cell parses); `.sum()`
  on a numeric column adds the numbers, on an object column it concatenates
  the strings — nothing is ever dropped;
* `pd.to_datetime(col, dayfirst=True)` is modelled element-wise as the
  dateutil/pandas day-first PREFERENCE on numeric dates: `a/b/YYYY` (also
  with `-`) is read day-first when that is a real date and silently
  month-first otherwise, a 4-digit leading field is read year-first; the
  column fails as a whole (the code catches the exception and calls
  `st.stop()`) only when some value parses under neither reading.
-/

namespace InvOpt

/-- A calendar date, ordered lexicographically by (year, month, day). -/
structure Date where
  year : ℕ
  month : ℕ
  day : ℕ
deriving DecidableEq, Repr

/-- Strict chronological order on dates. -/
def Date.lt (a b : Date) : Bool :=
  a.year < b.year ∨ (a.year = b.year ∧ (a.month < b.month ∨ (a.month = b.month ∧ a.day < b.day)))

/-- A quantity cell as produced by `pd.read_csv`: a number when the cell is
numeric, otherwise the raw string. -/
inductive Cell where
  | num (q : ℚ)
  | str (s : String)
deriving DecidableEq, Repr

/-- One row of the uploaded sales table: date string, product id, quantity
cell (the three user-mapped columns). -/
structure Record where
  fecha : String
  producto : String
  cantidad : Cell
deriving DecidableEq, Repr

/-- Whether a cell holds a parsed number. -/
def Cell.isNum : Cell → Bool
  | .num _ => true
  | .str _ => false

/-- Numeric value of a cell (0 for a raw string; only used on numeric cells). -/
def Cell.toQ : Cell → ℚ
  | .num q => q
  | .str _ => 0

/-- The raw string of a non-numeric cell. -/
def Cell.asStr : Cell → Option String
  | .num _ => none
  | .str s => some s

/-- pandas `.sum()` over the cells of one group: numeric columns add,
object (string) columns concatenate. No cell is discarded. -/
def aggCells (cs : List Cell) : Cell :=
  if cs.all Cell.isNum then .num ((cs.map Cell.toQ).sum)
  else .str (String.join (cs.filterMap Cell.asStr))

/-- `df[df[col_prod] == selected_prod]` (line 90 of `src/app.py`):
keep the selected product's rows, in order. -/
def filterProduct (df : List Record) (prod : String) : List Record :=
  df.filter (fun r => r.producto == prod)

/-- Lexicographic comparison of character lists by code point, the order
Python/pandas uses on `str` keys. -/
def lexLe : List Char → List Char → Bool
  | [], _ => true
  | _ :: _, [] => false
  | a :: as, b :: bs =>
    if a.toNat < b.toNat then true
    else if b.toNat < a.toNat then false
    else lexLe as bs

/-- The string order used by pandas when sorting `groupby` keys. -/
def strLe (a b : String) : Prop := lexLe a.data b.data = true

instance : DecidableRel strLe := fun a b => Bool.decEq (lexLe a.data b.data) true

/-- Distinct date strings of the rows, sorted ascending as strings — pandas
`groupby` sorts its keys and the keys here are the raw date strings. -/
def groupKeys (rows : List Record) : List String :=
  ((rows.map Record.fecha).dedup).insertionSort strLe

/-- `df_filtered.groupby(col_fecha)[col_cant].sum().reset_index()`
(line 93): one output row per distinct date string, keys ascending as
strings, value the aggregate of that key's quantity cells. -/
def groupSum (rows : List Record) : List (String × Cell) :=
  (groupKeys rows).map
    (fun k => (k, aggCells ((rows.filter (fun r => r.fecha == k)).map Record.cantidad)))

/-- Split a character list at the numeric date separators `'/'` and `'-'`. -/
def splitDateSep : List Char → List (List Char)
  | [] => [[]]
  | c :: cs =>
    if c = '/' ∨ c = '-' then [] :: splitDateSep cs
    else
      match splitDateSep cs with
      | g :: gs => (c :: g) :: gs
      | [] => [[c]]

/-- ASCII decimal digit test. -/
def isDigitChar (c : Char) : Bool := decide (48 ≤ c.toNat) && decide (c.toNat ≤ 57)

/-- Numeric value of a digit list (most significant first). -/
def decNat (cs : List Char) : ℕ := cs.foldl (fun n c => 10 * n + (c.toNat - 48)) 0

/-- Gregorian leap-year test. -/
def isLeap (y : ℕ) : Bool := (y % 4 == 0 && y % 100 != 0) || y % 400 == 0

/-- Number of days of month `m` of year `y`. -/
def daysInMonth (y m : ℕ) : ℕ :=
  if m = 2 then (if isLeap y then 29 else 28)
  else if m = 4 ∨ m = 6 ∨ m = 9 ∨ m = 11 then 30
  else 31

/-- A 1- or 2-digit field. -/
def shortDigits (cs : List Char) : Bool :=
  decide (1 ≤ cs.length) && decide (cs.length ≤ 2) && cs.all isDigitChar

/-- Whether (month `m`, day `d`) is a real calendar date of year `y`. -/
def validDM (y m d : ℕ) : Bool :=
  decide (1 ≤ m) && decide (m ≤ 12) && decide (1 ≤ d) && decide (d ≤ daysInMonth y m)

/-- dateutil/pandas parsing of the split numeric fields under
`dayfirst=True`. `dayfirst` is a preference, not a strict convention: for
`a/b/YYYY` the day-first reading (day `a`, month `b`) is taken when it is a
real date, otherwise the value silently parses month-first (month `a`, day
`b`); a 4-digit leading field is read year-first (`YYYY/m/d`, ISO-like,
with the same month-day preference and day-month fallback). Only a value
parsing under neither reading raises. -/
def parseFields : List (List Char) → Option Date
  | [as, bs, cs] =>
    if shortDigits as && shortDigits bs && decide (cs.length = 4) && cs.all isDigitChar then
      let a := decNat as
      let b := decNat bs
      let y := decNat cs
      if validDM y b a then some ⟨y, b, a⟩
      else if validDM y a b then some ⟨y, a, b⟩
      else none
    else if decide (as.length = 4) && as.all isDigitChar && shortDigits bs && shortDigits cs then
      let y := decNat as
      let b := decNat bs
      let c := decNat cs
      if validDM y b c then some ⟨y, b, c⟩
      else if validDM y c b then some ⟨y, c, b⟩
      else none
    else none
  | _ => none

/-- `pd.to_datetime(·, dayfirst=True)` on one value: day-first preferred —
`"05/01/2024"` is 5 January 2024 — but a value that cannot be read
day-first, such as `"01/13/2024"`, silently falls back to month-first
(13 January 2024) instead of raising. -/
def parseDayFirst (s : String) : Option Date := parseFields (splitDateSep s.data)

/-- The day-first reading ONLY of the split fields — this follows the
SPEC's words, not the code, and exists to be compared with `parseFields`. -/
def specFields : List (List Char) → Option Date
  | [as, bs, cs] =>
    if shortDigits as && shortDigits bs && decide (cs.length = 4) && cs.all isDigitChar then
      let a := decNat as
      let b := decNat bs
      let y := decNat cs
      if validDM y b a then some ⟨y, b, a⟩ else none
    else none
  | _ => none

/-- The date policy as the SPEC words it ("Parses the date field using a
day-first convention … Fails with a DateFormatError if any date cannot be
parsed under this convention"): strictly day-first, never month-first.
Stated only for comparison with the code's `parseDayFirst`. -/
def specDayFirst (s : String) : Option Date := specFields (splitDateSep s.data)

/-- The one failure the preparation code can signal: line 97–101 of
`src/app.py` catches the `to_datetime` exception and stops. -/
inductive PrepError where
  | dateFormatError
deriving DecidableEq, Repr

/-- `df_prophet['ds'] = pd.to_datetime(df_prophet['ds'], dayfirst=True)`
(line 98): parse every grouped date key, keeping row order; fail as a whole
if any key does not parse. -/
def parseDatesCol : List (String × Cell) → Option (List (Date × Cell))
  | [] => some []
  | (s, c) :: rest =>
    match parseDayFirst s, parseDatesCol rest with
    | some d, some l => some ((d, c) :: l)
    | _, _ => none

/-- Lines 90–101 of `src/app.py`: filter to the selected product, group by
raw date string summing quantities, then parse the dates day-first. There
is no further sort and no minimum-length check. -/
def prepare (df : List Record) (prod : String) : Except PrepError (List (Date × Cell)) :=
  match parseDatesCol (groupSum (filterProduct df prod)) with
  | none => Except.error PrepError.dateFormatError
  | some l => Except.ok l

/-- One row of the forecast dataframe returned by `m.predict(future)`. -/
structure ForecastPoint where
  ds : Date
  yhat : ℚ
  yhat_lower : ℚ
  yhat_upper : ℚ
deriving DecidableEq, Repr

/-- `forecast.tail(30)` (line 124): the last 30 rows — the future horizon
that `make_future_dataframe(periods=30)` appended. -/
def tail30 (forecast : List ForecastPoint) : List ForecastPoint :=
  forecast.drop (forecast.length - 30)

/-- `forecast.tail(30).head(lead_time)` (line 124). pandas `head` clamps to
the available rows. -/
def futuro_lead_time (forecast : List ForecastPoint) (lead_time : ℕ) : List ForecastPoint :=
  (tail30 forecast).take lead_time

/-- `punto_reorden = futuro_lead_time['yhat_upper'].sum()` (line 126). -/
def punto_reorden (forecast : List ForecastPoint) (lead_time : ℕ) : ℚ :=
  ((futuro_lead_time forecast lead_time).map ForecastPoint.yhat_upper).sum

/-- The `f"{punto_reorden:.0f}"` display formatting of lines 133 and 140:
Python rounds half to even. Applied only to the displayed string, never to
`punto_reorden` itself. -/
def displayRound (x : ℚ) : ℤ :=
  if x - ⌊x⌋ < 1 / 2 then ⌊x⌋
  else if 1 / 2 < x - ⌊x⌋ then ⌊x⌋ + 1
  else if Even ⌊x⌋ then ⌊x⌋ else ⌊x⌋ + 1

/-- The in-session data of the app: the ingested sales table (`df`,
line 65). -/
structure AppState where
  df : List Record
deriving DecidableEq, Repr

/-- What one analyze action presents: the forecast behind the chart, the
reorder point, and the 30-row export of line 144. -/
structure AnalysisView where
  forecast : List ForecastPoint
  reorden : ℚ
  export30 : List ForecastPoint
deriving DecidableEq, Repr

/-- Lines 86–150 of `src/app.py`, one click on "Analizar Inventario": run
`prepare` on the ingested table (the code filters into the fresh copy
`df_filtered`, never writing to `df`), hand the prepared series to the
forecasting engine with the configured interval width, and compute the
reorder point. The resulting state still holds the same ingested table. -/
def analyzeClick (st : AppState) (prod : String) (w : ℚ) (lead_time : ℕ)
    (engine : ℚ → List (Date × Cell) → List ForecastPoint) :
    AppState × Except PrepError AnalysisView :=
  match prepare st.df prod with
  | Except.error e => (st, Except.error e)
  | Except.ok series =>
    let forecast := engine w series
    (st, Except.ok ⟨forecast, punto_reorden forecast lead_time, tail30 forecast⟩)

deriving instance DecidableEq for Except

/-! ### Concrete tables, forecasts and engines used to instantiate the theorems -/

/-- Each adjacent pair of output rows is strictly ascending by calendar
date. -/
def datesStrictAscB : List (Date × Cell) → Bool
  | [] => true
  | [_] => true
  | a :: b :: rest => Date.lt a.1 b.1 && datesStrictAscB (b :: rest)

/-- The output is strictly ascending by calendar date. -/
def datesStrictAsc (l : List (Date × Cell)) : Prop := datesStrictAscB l = true

instance (l : List (Date × Cell)) : Decidable (datesStrictAsc l) :=
  Bool.decEq (datesStrictAscB l) true

/-- A product-"A" table whose date strings sort (as strings) against
calendar order: "04/02/2024" (4 Feb) precedes "05/01/2024" (5 Jan)
lexicographically, and "5/1/2024" denotes the same day as "05/01/2024". -/
def exMix : List Record :=
  [⟨"05/01/2024", "A", Cell.num 10⟩, ⟨"5/1/2024", "A", Cell.num 3⟩,
   ⟨"04/02/2024", "A", Cell.num 7⟩]

/-- A table with a single valid (date, quantity) point. -/
def exSingle : List Record := [⟨"05/01/2024", "A", Cell.num 10⟩]

/-- A table whose only date cannot be parsed day-first. -/
def exBadDate : List Record := [⟨"32/13/2024", "A", Cell.num 1⟩]

/-- A table whose only date reads validly month-first but not day-first. -/
def exSwap : List Record := [⟨"01/13/2024", "A", Cell.num 4⟩]

/-- A table whose quantity column fails numeric parsing, so `read_csv`
leaves every cell a string. -/
def exBadQty : List Record :=
  [⟨"05/01/2024", "A", Cell.str "abc"⟩, ⟨"06/01/2024", "A", Cell.str "5"⟩]

/-- A well-behaved two-day table (the spec template rows). -/
def exGood : List Record :=
  [⟨"01/01/2024", "A", Cell.num 10⟩, ⟨"02/01/2024", "A", Cell.num 15⟩]

/-- A one-row historical part of a forecast. -/
def histW : List ForecastPoint := [⟨⟨2023, 12, 31⟩, 1, 0, 5⟩]

/-- A 30-row future horizon whose upper bounds are all 2. -/
def futW : List ForecastPoint := List.replicate 30 ⟨⟨2024, 1, 1⟩, 1, 0, 2⟩

/-- A one-row forecast whose upper bound is the non-integer 7/2. -/
def exHalf : List ForecastPoint := [⟨⟨2024, 1, 1⟩, 3, 3, 7 / 2⟩]

/-- An engine whose future upper bound equals the confidence width. -/
def engineW : ℚ → List (Date × Cell) → List ForecastPoint :=
  fun w _ => [⟨⟨2024, 1, 1⟩, 0, 0, w⟩]

/-- An engine producing an empty forecast. -/
def engineNil : ℚ → List (Date × Cell) → List ForecastPoint := fun _ _ => []

/-! ### Order infrastructure for the string keys -/

theorem charToNat_inj {a b : Char} (h : a.toNat = b.toNat) : a = b :=
  Char.eq_of_val_eq (UInt32.eq_of_toBitVec_eq (BitVec.eq_of_toNat_eq h))

theorem lexLe_total : ∀ x y : List Char, lexLe x y = true ∨ lexLe y x = true
  | [], _ => Or.inl rfl
  | _ :: _, [] => Or.inr rfl
  | a :: as, b :: bs => by
    rcases Nat.lt_trichotomy a.toNat b.toNat with h | h | h
    · left; simp [lexLe, h]
    · rcases lexLe_total as bs with h2 | h2
      · left; simp [lexLe, h, h2]
      · right; simp [lexLe, h, h2]
    · right; simp [lexLe, h]

theorem lexLe_trans : ∀ x y z : List Char, lexLe x y = true → lexLe y z = true → lexLe x z = true
  | [], _, _, _, _ => rfl
  | a :: as, [], _, hxy, _ => by simp [lexLe] at hxy
  | a :: as, b :: bs, [], _, hyz => by simp [lexLe] at hyz
  | a :: as, b :: bs, c :: cs, hxy, hyz => by
    simp only [lexLe] at hxy hyz ⊢
    by_cases hab : a.toNat < b.toNat
    · by_cases hbc : b.toNat < c.toNat
      · simp [show a.toNat < c.toNat by omega]
      · by_cases hcb : c.toNat < b.toNat
        · simp [hbc, hcb] at hyz
        · simp [show a.toNat < c.toNat by omega]
    · by_cases hba : b.toNat < a.toNat
      · simp [hab, hba] at hxy
      · simp only [hab, hba, if_false] at hxy
        by_cases hbc : b.toNat < c.toNat
        · simp [show a.toNat < c.toNat by omega]
        · by_cases hcb : c.toNat < b.toNat
          · simp [hbc, hcb] at hyz
          · simp only [hbc, hcb, if_false] at hyz
            have h1 : ¬ a.toNat < c.toNat := by omega
            have h2 : ¬ c.toNat < a.toNat := by omega
            simp only [h1, h2, if_false]
            exact lexLe_trans as bs cs hxy hyz

theorem lexLe_antisymm : ∀ x y : List Char, lexLe x y = true → lexLe y x = true → x = y
  | [], [], _, _ => rfl
  | [], _ :: _, _, hyx => by simp [lexLe] at hyx
  | _ :: _, [], hxy, _ => by simp [lexLe] at hxy
  | a :: as, b :: bs, hxy, hyx => by
    simp only [lexLe] at hxy hyx
    by_cases hab : a.toNat < b.toNat
    · exfalso
      simp [show ¬ b.toNat < a.toNat by omega, hab] at hyx
    · by_cases hba : b.toNat < a.toNat
      · exfalso; simp [hab, hba] at hxy
      · simp only [hab, hba, if_false] at hxy hyx
        have hchar : a = b := charToNat_inj (by omega)
        rw [hchar, lexLe_antisymm as bs hxy hyx]

instance : IsTotal String strLe :=
  ⟨fun a b => lexLe_total a.data b.data⟩

instance : IsTrans String strLe :=
  ⟨fun a b c => lexLe_trans a.data b.data c.data⟩

theorem strLe_antisymm {a b : String} (h1 : strLe a b) (h2 : strLe b a) : a = b := by
  cases a; cases b
  exact congrArg String.mk (lexLe_antisymm _ _ h1 h2)

instance : IsAntisymm String strLe := ⟨fun _ _ => strLe_antisymm⟩

theorem groupKeys_sorted (rows : List Record) : List.Sorted strLe (groupKeys rows) :=
  List.sorted_insertionSort strLe _

theorem groupKeys_nodup (rows : List Record) : (groupKeys rows).Nodup :=
  ((List.perm_insertionSort strLe _).symm).nodup (List.nodup_dedup _)

theorem mem_groupKeys {k : String} {rows : List Record} :
    k ∈ groupKeys rows ↔ k ∈ rows.map Record.fecha := by
  rw [groupKeys, List.mem_insertionSort, List.mem_dedup]

theorem groupSum_fst (rows : List Record) :
    (groupSum rows).map Prod.fst = groupKeys rows := by
  rw [groupSum, List.map_map]
  exact List.map_id _

theorem mem_groupSum_val {rows : List Record} {k : String} {v : Cell}
    (h : (k, v) ∈ groupSum rows) :
    v = aggCells ((rows.filter (fun r => r.fecha == k)).map Record.cantidad) := by
  rcases List.mem_map.1 h with ⟨k', _, heq⟩
  cases heq
  rfl

/-! ### Parsing and summation helper lemmas -/

theorem parseDatesCol_none {l : List (String × Cell)}
    (h : ∃ p ∈ l, parseDayFirst p.1 = none) : parseDatesCol l = none := by
  induction l with
  | nil => rcases h with ⟨p, hp, _⟩; cases hp
  | cons hd tl ih =>
    obtain ⟨s, c⟩ := hd
    rcases h with ⟨p, hp, hnone⟩
    rcases List.mem_cons.1 hp with rfl | hmem
    · simp only [parseDatesCol]
      rw [hnone]
    · simp only [parseDatesCol]
      rw [ih ⟨p, hmem, hnone⟩]
      rcases parseDayFirst s with _ | _ <;> rfl

theorem parseDatesCol_some {l : List (String × Cell)} {out : List (Date × Cell)}
    (h : parseDatesCol l = some out) :
    List.Forall₂ (fun kv dc => parseDayFirst kv.1 = some dc.1 ∧ kv.2 = dc.2) l out := by
  induction l generalizing out with
  | nil => cases h; exact List.Forall₂.nil
  | cons hd tl ih =>
    obtain ⟨s, c⟩ := hd
    simp only [parseDatesCol] at h
    cases hd1 : parseDayFirst s with
    | none => rw [hd1] at h; exact absurd h (by simp)
    | some d =>
      rw [hd1] at h
      cases hd2 : parseDatesCol tl with
      | none => rw [hd2] at h; exact absurd h (by simp)
      | some rest =>
        rw [hd2] at h
        simp only [Option.some.injEq] at h
        cases h
        exact List.Forall₂.cons ⟨hd1, rfl⟩ (ih hd2)

theorem tail30_append {hist fut : List ForecastPoint} (h : fut.length = 30) :
    tail30 (hist ++ fut) = fut := by
  rw [tail30, List.length_append, h]
  have : hist.length + 30 - 30 = hist.length := by omega
  rw [this, List.drop_left]

theorem tail30_length_le (f : List ForecastPoint) : (tail30 f).length ≤ 30 := by
  rw [tail30, List.length_drop]
  omega

theorem sum_upper_take_le {l₁ l₂ : List ForecastPoint}
    (h : List.Forall₂ (fun a b => a.yhat_upper ≤ b.yhat_upper) l₁ l₂) :
    ∀ n : ℕ, ((l₁.take n).map ForecastPoint.yhat_upper).sum
      ≤ ((l₂.take n).map ForecastPoint.yhat_upper).sum := by
  induction h with
  | nil => intro n; simp
  | cons hab htl ih =>
    intro n
    cases n with
    | zero => simp
    | succ m =>
      simp only [List.take_succ_cons, List.map_cons, List.sum_cons]
      exact add_le_add hab (ih m)

/-! ### Claims on the reorder-point computation and the pipeline frame -/

/-- C1: with a 30-entry future horizon and 1 ≤ lead_time ≤ 30, the reorder
point is exactly the sum of yhat_upper over the first lead_time entries of
the future horizon, and over nothing else. -/
theorem reorder_sums_first_lead_time_of_future (hist fut : List ForecastPoint)
    (h30 : fut.length = 30) (L : ℕ) (h1 : 1 ≤ L) (h2 : L ≤ 30) :
    punto_reorden (hist ++ fut) L = ((fut.take L).map ForecastPoint.yhat_upper).sum := by
  rw [punto_reorden, futuro_lead_time, tail30_append h30]

theorem reorder_sums_first_lead_time_of_future_witness :
    futW.length = 30 ∧ 1 ≤ 3 ∧ 3 ≤ 30 ∧
    punto_reorden (histW ++ futW) 3 = ((futW.take 3).map ForecastPoint.yhat_upper).sum :=
  ⟨by simp [futW], by norm_num, by norm_num,
    reorder_sums_first_lead_time_of_future histW futW (by simp [futW]) 3 (by norm_num)
      (by norm_num)⟩

/-- C2 counterexample: at lead_time = 31 on a forecast with a 30-entry
future horizon, a reorder value is produced (the clamped 30-entry sum);
nothing fails. -/
theorem lead_time_31_no_error_counterexample :
    punto_reorden (histW ++ futW) 31 = 60 ∧
    punto_reorden (histW ++ futW) 31 = punto_reorden (histW ++ futW) 30 := by
  constructor <;>
      simp [punto_reorden, futuro_lead_time, tail30, histW, futW, List.take_replicate,
        List.map_replicate, List.sum_replicate] <;>
    norm_num

/-- C2 amended: lead_time beyond the horizon raises no error — `head`
clamps, so the result equals the full 30-entry (lead_time = 30) sum. -/
theorem lead_time_exceeding_horizon_clamps (f : List ForecastPoint) :
    punto_reorden f 31 = punto_reorden f 30 := by
  rw [punto_reorden, punto_reorden, futuro_lead_time, futuro_lead_time,
    List.take_of_length_le (le_trans (tail30_length_le f) (by norm_num)),
    List.take_of_length_le (tail30_length_le f)]

/-- C10: for lead_time ≥ 30 the computation silently clamps and returns the
sum over all 30 future entries, so lead_time 31 and 30 agree. -/
theorem lead_time_ge_horizon_sums_all (hist fut : List ForecastPoint) (h30 : fut.length = 30)
    (L : ℕ) (hL : 30 ≤ L) :
    punto_reorden (hist ++ fut) L = (fut.map ForecastPoint.yhat_upper).sum ∧
    punto_reorden (hist ++ fut) 31 = punto_reorden (hist ++ fut) 30 := by
  refine ⟨?_, ?_⟩
  · rw [punto_reorden, futuro_lead_time, tail30_append h30,
      List.take_of_length_le (by omega)]
  · rw [punto_reorden, punto_reorden, futuro_lead_time, futuro_lead_time, tail30_append h30,
      List.take_of_length_le (by omega), List.take_of_length_le (by omega)]

theorem lead_time_ge_horizon_sums_all_witness :
    futW.length = 30 ∧ 30 ≤ 31 ∧
    (punto_reorden (histW ++ futW) 31 = (futW.map ForecastPoint.yhat_upper).sum ∧
      punto_reorden (histW ++ futW) 31 = punto_reorden (histW ++ futW) 30) :=
  ⟨by simp [futW], by norm_num,
    lead_time_ge_horizon_sums_all histW futW (by simp [futW]) 31 (by norm_num)⟩

/-- C6: under the engine contract that a wider confidence width gives
pointwise-larger future upper bounds, the reorder point cannot decrease. -/
theorem reorder_monotone_in_confidence
    (engine : ℚ → List (Date × Cell) → List ForecastPoint) (series : List (Date × Cell))
    (lead_time : ℕ) (w₁ w₂ : ℚ) (hw : w₁ ≤ w₂)
    (hcontract : List.Forall₂ (fun a b => a.yhat_upper ≤ b.yhat_upper)
      (tail30 (engine w₁ series)) (tail30 (engine w₂ series))) :
    punto_reorden (engine w₁ series) lead_time ≤ punto_reorden (engine w₂ series) lead_time :=
  sum_upper_take_le hcontract lead_time

theorem reorder_monotone_in_confidence_witness :
    (1 : ℚ) / 2 ≤ 4 / 5 ∧
    punto_reorden (engineW (1 / 2) []) 2 ≤ punto_reorden (engineW (4 / 5) []) 2 :=
  ⟨by norm_num,
    reorder_monotone_in_confidence engineW [] 2 (1 / 2) (4 / 5) (by norm_num)
      (by
        simp only [engineW, tail30, List.length_cons, List.length_nil, List.drop]
        exact List.Forall₂.cons (by norm_num) List.Forall₂.nil)⟩

/-- C8: the returned reorder point is the exact, unrounded sum of the
selected yhat_upper values; the `:.0f` rounding of lines 133/140 affects
only the displayed figure, as the 7/2 example shows. -/
theorem reorder_point_returned_unrounded :
    (∀ (forecast : List ForecastPoint) (lead_time : ℕ),
      punto_reorden forecast lead_time
        = (((tail30 forecast).take lead_time).map ForecastPoint.yhat_upper).sum) ∧
    punto_reorden exHalf 1 = 7 / 2 ∧
    displayRound (punto_reorden exHalf 1) = 4 ∧
    punto_reorden exHalf 1 ≠ ((displayRound (punto_reorden exHalf 1) : ℤ) : ℚ) := by
  have h2 : punto_reorden exHalf 1 = 7 / 2 := by
    simp [punto_reorden, futuro_lead_time, tail30, exHalf]
  have h3 : displayRound ((7 : ℚ) / 2) = 4 := by
    have hfl : ⌊(7 : ℚ) / 2⌋ = 3 := by norm_num
    rw [displayRound, hfl]
    norm_num [Int.even_iff]
  refine ⟨fun f n => rfl, h2, ?_, ?_⟩
  · rw [h2, h3]
  · rw [h2, h3]; norm_num

/-- C9: one analyze action leaves the ingested sales table untouched —
the pipeline filters into the fresh copy `df_filtered` and never writes
to `df`. -/
theorem analyze_preserves_ingested_table
    (st : AppState) (prod : String) (w : ℚ) (lead_time : ℕ)
    (engine : ℚ → List (Date × Cell) → List ForecastPoint) :
    (analyzeClick st prod w lead_time engine).1 = st := by
  unfold analyzeClick
  cases prepare st.df prod <;> rfl

/-! ### Claims on the series preparation -/

theorem aggCells_single_num (q : ℚ) : aggCells [Cell.num q] = Cell.num q := by
  simp [aggCells, Cell.isNum, Cell.toQ]

/-- C3 counterexample: on a table with dates "05/01/2024" (5 Jan),
"5/1/2024" (also 5 Jan) and "04/02/2024" (4 Feb), `prepare` succeeds with at
least 2 distinct valid dates, yet its output is not ascending by calendar
date (4 Feb comes first) and repeats the calendar date 5 Jan, whose rows
were not aggregated together — grouping and sorting happen on the raw date
strings before parsing, with no later re-sort. -/
theorem prepare_not_date_sorted_counterexample :
    prepare exMix "A"
        = Except.ok [(⟨2024, 2, 4⟩, Cell.num 7), (⟨2024, 1, 5⟩, Cell.num 10),
            (⟨2024, 1, 5⟩, Cell.num 3)] ∧
    2 ≤ ((((filterProduct exMix "A").map Record.fecha).filterMap parseDayFirst).dedup).length ∧
    ¬ datesStrictAsc [(⟨2024, 2, 4⟩, Cell.num 7), (⟨2024, 1, 5⟩, Cell.num 10),
        (⟨2024, 1, 5⟩, Cell.num 3)] ∧
    ¬ ((([(⟨2024, 2, 4⟩, Cell.num 7), (⟨2024, 1, 5⟩, Cell.num 10),
        (⟨2024, 1, 5⟩, Cell.num 3)] : List (Date × Cell)).map Prod.fst).Nodup) := by
  have hg : groupSum (filterProduct exMix "A")
      = [("04/02/2024", Cell.num 7), ("05/01/2024", Cell.num 10), ("5/1/2024", Cell.num 3)] := by
    rw [groupSum,
      (by decide : groupKeys (filterProduct exMix "A")
        = ["04/02/2024", "05/01/2024", "5/1/2024"])]
    simp only [List.map]
    rw [aggCells_single_num, aggCells_single_num, aggCells_single_num]
  refine ⟨?_, by decide, by decide, by decide⟩
  rw [prepare, hg]
  decide


/-- C3 amended: for a table with at least 2 distinct valid dates for the
selected product, the grouped series `prepare` parses is strictly ascending
by raw date string (not calendar date), has no duplicate date strings (two
distinct strings may still denote one calendar date), and pairs each date
string with the aggregate of exactly the selected product's rows carrying
that string. -/
theorem prepare_sorted_by_raw_date_string (df : List Record) (prod : String)
    (h2 : 2 ≤ ((((filterProduct df prod).map Record.fecha).filterMap parseDayFirst).dedup).length) :
    List.Pairwise (fun a b => strLe a.1 b.1 ∧ a.1 ≠ b.1) (groupSum (filterProduct df prod)) ∧
    ((groupSum (filterProduct df prod)).map Prod.fst).Nodup ∧
    ∀ k v, (k, v) ∈ groupSum (filterProduct df prod) →
      v = aggCells (((filterProduct df prod).filter (fun r => r.fecha == k)).map
        Record.cantidad) := by
  refine ⟨?_, ?_, fun k v h => mem_groupSum_val h⟩
  · rw [groupSum, List.pairwise_map]
    exact List.Pairwise.and (groupKeys_sorted _) (groupKeys_nodup _)
  · rw [groupSum_fst]
    exact groupKeys_nodup _

theorem prepare_sorted_by_raw_date_string_witness :
    2 ≤ ((((filterProduct exGood "A").map Record.fecha).filterMap parseDayFirst).dedup).length ∧
    ((groupSum (filterProduct exGood "A")).map Prod.fst).Nodup :=
  ⟨by decide, (prepare_sorted_by_raw_date_string exGood "A" (by decide)).2.1⟩

/-- C4 counterexample: on a table with a single valid (date, quantity)
point, `prepare` does not fail — it returns the 1-point series, and the
analyze action goes on to invoke the forecast engine on it. The code has no
`InsufficientDataError`; any insufficiency failure would come from the
engine itself. -/
theorem prepare_single_point_succeeds_counterexample :
    prepare exSingle "A" = Except.ok [(⟨2024, 1, 5⟩, Cell.num 10)] ∧
    (analyzeClick ⟨exSingle⟩ "A" (4 / 5) 3 engineNil).2
      = Except.ok ⟨[], 0, []⟩ := by
  have hg : groupSum (filterProduct exSingle "A") = [("05/01/2024", Cell.num 10)] := by
    rw [groupSum, (by decide : groupKeys (filterProduct exSingle "A") = ["05/01/2024"])]
    simp only [List.map]
    rw [aggCells_single_num]
  have hprep : prepare exSingle "A" = Except.ok [(⟨2024, 1, 5⟩, Cell.num 10)] := by
    rw [prepare, hg]; decide
  refine ⟨hprep, ?_⟩
  simp [analyzeClick, hprep, engineNil, punto_reorden, futuro_lead_time, tail30]

/-- C4 amended: `prepare` performs no minimum-length validation. Its only
error is the date-format failure, and a table with one valid point yields a
1-element series successfully (which is then handed to the forecast
engine). -/
theorem prepare_has_no_min_length_check :
    (∀ (df : List Record) (prod : String) (e : PrepError),
      prepare df prod = Except.error e → e = PrepError.dateFormatError) ∧
    (∀ (r : Record) (prod : String) (q : ℚ) (d : Date),
      r.producto = prod → r.cantidad = Cell.num q → parseDayFirst r.fecha = some d →
      prepare [r] prod = Except.ok [(d, Cell.num q)]) := by
  constructor
  · intro df prod e _
    cases e
    rfl
  · intro r prod q d hprod hq hd
    have hfil : filterProduct [r] prod = [r] := by
      simp [filterProduct, hprod]
    have hkeys : groupKeys [r] = [r.fecha] := by
      rw [groupKeys]
      simp [List.insertionSort, List.orderedInsert]
    have hg : groupSum (filterProduct [r] prod) = [(r.fecha, Cell.num q)] := by
      rw [hfil, groupSum, hkeys]
      simp [hq, aggCells, Cell.isNum, Cell.toQ]
    rw [prepare, hg]
    simp only [parseDatesCol, hd]

theorem prepare_has_no_min_length_check_witness :
    prepare exSingle "A" = Except.ok [(⟨2024, 1, 5⟩, Cell.num 10)] :=
  prepare_has_no_min_length_check.2 ⟨"05/01/2024", "A", Cell.num 10⟩ "A" 10 ⟨2024, 1, 5⟩
    rfl rfl (by decide)

/-- If a value parses under the spec's strict day-first convention, the
code's preference parser returns the same date (day-first is tried first). -/
theorem parseFields_of_specFields :
    ∀ {gs : List (List Char)} {d : Date}, specFields gs = some d → parseFields gs = some d
  | [as, bs, cs], d, h => by
    simp only [specFields] at h
    simp only [parseFields]
    by_cases hc : (shortDigits as && shortDigits bs && decide (cs.length = 4)
        && cs.all isDigitChar) = true
    · simp only [hc, if_true] at h ⊢
      by_cases hv : validDM (decNat cs) (decNat bs) (decNat as) = true
      · simp only [hv, if_true] at h ⊢
        exact h
      · simp only [hv, if_false] at h
        exact absurd h (by simp)
    · simp only [hc, if_false] at h
      exact absurd h (by simp)
  | [], _, h => Option.noConfusion h
  | [_], _, h => Option.noConfusion h
  | [_, _], _, h => Option.noConfusion h
  | _ :: _ :: _ :: _ :: _, _, h => Option.noConfusion h

theorem parseDayFirst_of_specDayFirst {s : String} {d : Date}
    (h : specDayFirst s = some d) : parseDayFirst s = some d :=
  parseFields_of_specFields h

/-- On a column whose every key is strictly day-first parseable, a
successful parse of the column reads every key day-first. -/
theorem forall2_spec_of_parse :
    ∀ {l : List (String × Cell)} {out : List (Date × Cell)},
      (∀ k ∈ l.map Prod.fst, (specDayFirst k).isSome) →
      List.Forall₂ (fun kv dc => parseDayFirst kv.1 = some dc.1 ∧ kv.2 = dc.2) l out →
      List.Forall₂ (fun kv dc => specDayFirst kv.1 = some dc.1 ∧ kv.2 = dc.2) l out := by
  intro l out hall h
  induction h with
  | nil => exact List.Forall₂.nil
  | @cons a b l₁ l₂ hab htl ih =>
    refine List.Forall₂.cons ?_ (ih fun k hk => hall k (List.mem_cons_of_mem _ hk))
    obtain ⟨hpref, hsnd⟩ := hab
    have hs : (specDayFirst a.1).isSome :=
      hall a.1 (List.mem_map_of_mem _ (List.mem_cons_self _ _))
    rcases Option.isSome_iff_exists.1 hs with ⟨e, he⟩
    have hpd : parseDayFirst a.1 = some e := parseDayFirst_of_specDayFirst he
    have hbe : b.1 = e := Option.some.inj (hpref.symm.trans hpd)
    exact ⟨by rw [he, hbe], hsnd⟩

/-- C5 counterexample: the date "01/13/2024" cannot be parsed under the
day-first convention (there is no month 13), yet `prepare` does not fail
with the date-format error: pandas' `dayfirst=True` is a silent preference,
and the value parses month-first, the series showing 13 January 2024. -/
theorem prepare_day_first_not_strict_counterexample :
    specDayFirst "01/13/2024" = none ∧
    prepare exSwap "A" = Except.ok [(⟨2024, 1, 13⟩, Cell.num 4)] := by
  refine ⟨by decide, ?_⟩
  have hg : groupSum (filterProduct exSwap "A") = [("01/13/2024", Cell.num 4)] := by
    rw [groupSum, (by decide : groupKeys (filterProduct exSwap "A") = ["01/13/2024"])]
    simp only [List.map]
    rw [aggCells_single_num]
  rw [prepare, hg]
  decide

/-- C5 amended: dates are parsed with a day-first PREFERENCE, not a strict
convention — "05/01/2024" is 5 January 2024, but a value that cannot be
read day-first, such as "01/13/2024", silently parses month-first instead
of failing. The date-format error occurs exactly when some grouped date
parses under neither reading; then the computation halts with no partial
result. On a column whose every date is day-first-readable, the output
dates are the day-first parses of the grouped keys, none skipped. -/
theorem prepare_dates_day_first_preference :
    parseDayFirst "05/01/2024" = some ⟨2024, 1, 5⟩ ∧
    parseDayFirst "01/13/2024" = some ⟨2024, 1, 13⟩ ∧
    (∀ (df : List Record) (prod : String),
      (∃ k ∈ (groupSum (filterProduct df prod)).map Prod.fst, parseDayFirst k = none) →
      prepare df prod = Except.error PrepError.dateFormatError) ∧
    (∀ (df : List Record) (prod : String) (out : List (Date × Cell)),
      (∀ k ∈ (groupSum (filterProduct df prod)).map Prod.fst, (specDayFirst k).isSome) →
      prepare df prod = Except.ok out →
      List.Forall₂ (fun kv dc => specDayFirst kv.1 = some dc.1 ∧ kv.2 = dc.2)
        (groupSum (filterProduct df prod)) out) := by
  refine ⟨by decide, by decide, ?_, ?_⟩
  · rintro df prod ⟨k, hk, hnone⟩
    rcases List.mem_map.1 hk with ⟨p, hp, rfl⟩
    rw [prepare, parseDatesCol_none ⟨p, hp, hnone⟩]
  · intro df prod out hall hok
    rw [prepare] at hok
    cases hcol : parseDatesCol (groupSum (filterProduct df prod)) with
    | none => rw [hcol] at hok; cases hok
    | some l =>
      rw [hcol] at hok
      cases hok
      exact forall2_spec_of_parse hall (parseDatesCol_some hcol)

theorem prepare_dates_day_first_preference_witness :
    prepare exBadDate "A" = Except.error PrepError.dateFormatError ∧
    List.Forall₂ (fun kv dc => specDayFirst kv.1 = some dc.1 ∧ kv.2 = dc.2)
      (groupSum (filterProduct exGood "A"))
      [(⟨2024, 1, 1⟩, Cell.num 10), (⟨2024, 1, 2⟩, Cell.num 15)] := by
  have hg : groupSum (filterProduct exGood "A")
      = [("01/01/2024", Cell.num 10), ("02/01/2024", Cell.num 15)] := by
    rw [groupSum,
      (by decide : groupKeys (filterProduct exGood "A") = ["01/01/2024", "02/01/2024"])]
    simp only [List.map]
    rw [aggCells_single_num, aggCells_single_num]
  refine ⟨prepare_dates_day_first_preference.2.2.1 exBadDate "A"
      ⟨"32/13/2024", by decide, by decide⟩,
    prepare_dates_day_first_preference.2.2.2 exGood "A"
      [(⟨2024, 1, 1⟩, Cell.num 10), (⟨2024, 1, 2⟩, Cell.num 15)] ?_ ?_⟩
  · rw [hg]
    decide
  · rw [prepare, hg]
    decide

/-- C7 counterexample: with a quantity column that fails numeric parsing
(cells "abc" and "5" stay strings), `prepare` drops nothing: the row with
quantity "abc" still contributes its date to the series. The code performs
no numeric coercion at all. -/
theorem quantity_rows_never_dropped_counterexample :
    prepare exBadQty "A"
      = Except.ok [(⟨2024, 1, 5⟩, Cell.str "abc"), (⟨2024, 1, 6⟩, Cell.str "5")] := by
  decide

/-- C7 amended: no row of the selected product is ever dropped on quantity
grounds — whatever its quantity cell holds, its date string appears among
the grouped dates of the prepared series. (Quantity parsing failures also
never abort the computation: `prepare` only fails on dates.) -/
theorem quantity_rows_never_dropped (df : List Record) (prod : String) (r : Record)
    (hr : r ∈ df) (hp : r.producto = prod) :
    r.fecha ∈ (groupSum (filterProduct df prod)).map Prod.fst := by
  rw [groupSum_fst]
  exact mem_groupKeys.2 (List.mem_map_of_mem _ (List.mem_filter.2 ⟨hr, by simp [hp]⟩))

theorem quantity_rows_never_dropped_witness :
    "05/01/2024" ∈ (groupSum (filterProduct exBadQty "A")).map Prod.fst :=
  quantity_rows_never_dropped exBadQty "A" ⟨"05/01/2024", "A", Cell.str "abc"⟩
    (by decide) rfl


end InvOpt
